import Mathlib

/-!
Verification development for the mcp-longbridge MCP server.

The repository exposes the LongPort brokerage SDK as MCP tools.  The logic
verified here is its schema-driven validation / transformation / dispatch /
result-normalization layer:

* `src/utils.ts` — the primitive parsers `parseNaiveDate`, `parseTime`,
  `parseNaiveDatetime` (fixed-width date/time decoding);
* `src/constants.ts` — the zod parameter schemas, in particular
  `QuoteHistoryCandlesticksSchema` with its two conditionally required
  sub-objects (`date_request`, `offset_request`) and its `.refine` step;
* `src/api.ts` / the `LongBridge` class — per-tool handlers of the shape
  `try { parse; getContext; backend call; success envelope } catch { error envelope }`
  with the lazily memoized `config` / `tradeContext` / `quoteContext` fields;
* `src/index.ts` — the dispatcher, which resolves the tool name through
  `ToolNameSchema` and constructs a fresh `LongBridge` for every request.

JavaScript strings are modelled as `String`, numbers occurring in the schemas
as `Nat`/`Int`, thrown exceptions as `Except`, and `undefined`/absent fields
as `Option`.  JS truthiness is modelled explicitly where the source relies on
it (`value?.date ? … : …` treats the empty string as false; an object is
always truthy).
-/

/-- Decidable equality for `Except`, needed to evaluate the embedded parsers
on concrete inputs with `decide`. -/
instance {ε α : Type} [DecidableEq ε] [DecidableEq α] : DecidableEq (Except ε α) := fun a b =>
  match a, b with
  | .ok x, .ok y =>
    if h : x = y then isTrue (by rw [h]) else isFalse (by intro hc; cases hc; exact h rfl)
  | .error x, .error y =>
    if h : x = y then isTrue (by rw [h]) else isFalse (by intro hc; cases hc; exact h rfl)
  | .ok _, .error _ => isFalse (by intro hc; cases hc)
  | .error _, .ok _ => isFalse (by intro hc; cases hc)

/-- Decimal value of a digit string, as computed by `Number.parseInt(s, 10)`
on a string of ASCII digits (on such strings `parseInt` never returns `NaN`,
so the `Number.isNaN` guards of the source are vacuous and not modelled). -/
def digitsToNat (cs : List Char) : Nat :=
  cs.foldl (fun n c => n * 10 + (c.toNat - 48)) 0

/-- The `NaiveDate` value constructed by `new NaiveDate(year, month, day)`. -/
structure NaiveDate where
  year : Nat
  month : Nat
  day : Nat
deriving DecidableEq

/-- The `Time` value constructed by `new Time(hour, minute, second)`. -/
structure Time where
  hour : Nat
  minute : Nat
  second : Nat
deriving DecidableEq

/-- The `NaiveDatetime` value constructed by `new NaiveDatetime(date, time)`. -/
structure NaiveDatetime where
  date : NaiveDate
  time : Time
deriving DecidableEq

/-- Message of the error thrown by `parseNaiveDate` on a regex mismatch. -/
def dateFormatErrMsg : String := "日期格式无效，应为\"YYYYMMDD\""

/-- Message of the error thrown by `parseNaiveDate` on an out-of-range value. -/
def dateValueErrMsg : String := "无效的日期值"

/-- Message of the error thrown by `parseTime` on a regex mismatch. -/
def timeFormatErrMsg : String := "时间格式无效，应为\"HHMM\"或\"HHMMSS\""

/-- Message of the error thrown by `parseTime` on an out-of-range value. -/
def timeValueErrMsg : String := "无效的时间值"

/-- Embedding of `parseNaiveDate` from `src/utils.ts`.

The source first tests `/^\d{8}$/` (exactly 8 ASCII digits), then takes
`substring(0,4)`, `substring(4,6)`, `substring(6,8)` through
`Number.parseInt(_, 10)` as year / month / day, and rejects
`month < 1 || month > 12 || day < 1 || day > 31`.  Day-of-month versus the
actual month (and leap years) is deliberately not checked. -/
def parseNaiveDate (dateStr : String) : Except String NaiveDate :=
  if ¬ (dateStr.length = 8 ∧ dateStr.data.all Char.isDigit = true) then
    .error dateFormatErrMsg
  else if digitsToNat ((dateStr.data.drop 4).take 2) < 1 ∨
      digitsToNat ((dateStr.data.drop 4).take 2) > 12 ∨
      digitsToNat ((dateStr.data.drop 6).take 2) < 1 ∨
      digitsToNat ((dateStr.data.drop 6).take 2) > 31 then
    .error dateValueErrMsg
  else
    .ok { year := digitsToNat (dateStr.data.take 4),
          month := digitsToNat ((dateStr.data.drop 4).take 2),
          day := digitsToNat ((dateStr.data.drop 6).take 2) }

/-- Embedding of `parseTime` from `src/utils.ts`.

The source tests `/^\d{4}(\d{2})?$/` (exactly 4 or exactly 6 ASCII digits),
decodes hour / minute from the first two 2-digit groups, the second from the
third group when present and `0` otherwise, and rejects hour > 23 or
minute > 59 or second > 59 (the `< 0` guards of the source are vacuous for
digit substrings and not modelled). -/
def parseTime (timeStr : String) : Except String Time :=
  if ¬ ((timeStr.length = 4 ∨ timeStr.length = 6) ∧ timeStr.data.all Char.isDigit = true) then
    .error timeFormatErrMsg
  else if digitsToNat (timeStr.data.take 2) > 23 ∨
      digitsToNat ((timeStr.data.drop 2).take 2) > 59 ∨
      (if timeStr.length > 4 then digitsToNat ((timeStr.data.drop 4).take 2) else 0) > 59 then
    .error timeValueErrMsg
  else
    .ok { hour := digitsToNat (timeStr.data.take 2),
          minute := digitsToNat ((timeStr.data.drop 2).take 2),
          second := if timeStr.length > 4 then digitsToNat ((timeStr.data.drop 4).take 2) else 0 }

/-- Embedding of `parseNaiveDatetime` from `src/utils.ts`:
`const time = timeStr ? parseTime(timeStr) : new Time(0, 0, 0)`.
A JS string is truthy iff it is defined and nonempty, so an absent or empty
`timeStr` yields midnight. -/
def parseNaiveDatetime (dateStr : String) (timeStr : Option String) : Except String NaiveDatetime :=
  match parseNaiveDate dateStr with
  | .error e => .error e
  | .ok date =>
    match timeStr with
    | some t =>
      if t = "" then .ok { date := date, time := { hour := 0, minute := 0, second := 0 } }
      else
        match parseTime t with
        | .error e => .error e
        | .ok time => .ok { date := date, time := time }
    | none => .ok { date := date, time := { hour := 0, minute := 0, second := 0 } }

/-- Spec-side reading of the year field: the first 4 digits. -/
def yearOf (s : String) : Nat := digitsToNat (s.data.take 4)

/-- Spec-side reading of the month field: the next 2 digits. -/
def monthOf (s : String) : Nat := digitsToNat ((s.data.drop 4).take 2)

/-- Spec-side reading of the day field: the last 2 digits. -/
def dayOf (s : String) : Nat := digitsToNat ((s.data.drop 6).take 2)

/-- Spec-side format condition for dates: exactly 8 ASCII digits. -/
abbrev isEightDigits (s : String) : Prop := s.length = 8 ∧ s.data.all Char.isDigit = true

/-- Spec-side range condition for dates: month in [1,12] and day in [1,31]. -/
abbrev dateInRange (s : String) : Prop :=
  1 ≤ monthOf s ∧ monthOf s ≤ 12 ∧ 1 ≤ dayOf s ∧ dayOf s ≤ 31

/-- Spec-side reading of the hour field: the first 2 digits. -/
def hourOf (s : String) : Nat := digitsToNat (s.data.take 2)

/-- Spec-side reading of the minute field: the next 2 digits. -/
def minuteOf (s : String) : Nat := digitsToNat ((s.data.drop 2).take 2)

/-- Spec-side reading of the second field: the third 2-digit group when the
string has 6 digits, and `0` for a 4-digit string. -/
def secondOf (s : String) : Nat :=
  if s.length > 4 then digitsToNat ((s.data.drop 4).take 2) else 0

/-- Spec-side format condition for times: exactly 4 or exactly 6 ASCII digits. -/
abbrev isTimeDigits (s : String) : Prop :=
  (s.length = 4 ∨ s.length = 6) ∧ s.data.all Char.isDigit = true

/-- Spec-side range condition for times: hour in [0,23], minute in [0,59],
second in [0,59] (for a 4-digit string the second is 0, hence in range). -/
abbrev timeInRange (s : String) : Prop :=
  hourOf s ≤ 23 ∧ minuteOf s ≤ 59 ∧ secondOf s ≤ 59

/-- The `Period` enumeration of the longport SDK; the schema's period union
lists a literal for every member, so any `Period` value is accepted. -/
inductive Period
  | min1 | min2 | min3 | min5 | min10 | min15 | min20 | min30 | min45 | min60
  | min120 | min180 | min240 | day | week | month | quarter | year
deriving DecidableEq

/-- The two `AdjustType` literals accepted by the schema's adjust_type union
(`AdjustType.NoAdjust`, `AdjustType.ForwardAdjust`). -/
inductive AdjustType
  | noAdjust
  | forwardAdjust
deriving DecidableEq

/-- Raw `date_request` sub-object of a candlestick argument bag; both
`start_date` and `end_date` are required by the inner zod object. -/
structure RawDateRequest where
  start_date : String
  end_date : String
deriving DecidableEq

/-- Raw `offset_request` sub-object of a candlestick argument bag:
required `direction` (literal 0 or 1), optional `date`, `minute`, `count`. -/
structure RawOffsetRequest where
  direction : Nat
  date : Option String
  minute : Option String
  count : Option Int
deriving DecidableEq

/-- A (well-typed) candlestick argument bag, the input of
`QuoteHistoryCandlesticksSchema.parse`.  `query_type` is kept as a raw
number so that the literal union check `1 | 2` stays visible. -/
structure RawCandleArgs where
  symbol : String
  period : Period
  adjust_type : AdjustType
  query_type : Nat
  date_request : Option RawDateRequest
  offset_request : Option RawOffsetRequest
deriving DecidableEq

/-- Transformed `date_request`: in the TS source the fields are named
`start` and `end`; the latter is a reserved keyword here, hence `end_`. -/
structure DateReq where
  start : NaiveDate
  end_ : NaiveDate
deriving DecidableEq

/-- Transformed `offset_request`.  Note that the transform sits OUTSIDE the
`.optional()`, so its output type is a plain (non-optional) object. -/
structure OffsetReq where
  forward : Bool
  datetime : Option NaiveDatetime
  count : Option Int
deriving DecidableEq

/-- The ValidatedRequest produced by `QuoteHistoryCandlesticksSchema.parse`.
`date_request` may be absent (its `.optional()` is outermost), while
`offset_request` is always a defined object (its transform is outermost). -/
structure CandleParams where
  symbol : String
  period : Period
  adjust_type : AdjustType
  query_type : Nat
  date_request : Option DateReq
  offset_request : OffsetReq
deriving DecidableEq

/-- Uppercase letter or digit, the `[A-Z0-9]` class of SymbolSchema. -/
def isUpperOrDigit (c : Char) : Bool :=
  (65 ≤ c.toNat && c.toNat ≤ 90) || (48 ≤ c.toNat && c.toNat ≤ 57)

/-- Uppercase letter, the `[A-Z]` class of SymbolSchema. -/
def isUpperLetter (c : Char) : Bool := 65 ≤ c.toNat && c.toNat ≤ 90

/-- The SymbolSchema regex `^[A-Z0-9]+\.[A-Z]+$`: exactly one dot, a
nonempty uppercase-alphanumeric ticker before it and a nonempty uppercase
region after it. -/
def symbolOk (s : String) : Bool :=
  match s.data.splitOn '.' with
  | [tick, region] =>
    (!tick.isEmpty) && (!region.isEmpty) && tick.all isUpperOrDigit && region.all isUpperLetter
  | _ => false

/-- Message of SymbolSchema's regex failure. -/
def symbolErrMsg : String := "Symbol must be in the format of \"ticker.region\""

/-- Default zod issue message used for the literal-union mismatches and for
the `.refine` failure (the source supplies no custom message there). -/
def invalidInputMsg : String := "Invalid input"

/-- Message of the `count` bound failure (`.min(1).max(1000)`). -/
def countErrMsg : String := "Count of Candlesticks must be in range [1,1000]"

/-- The `count` field of `offset_request`:
`z.number().int().min(1).max(1000).optional().default(10)` — an absent count
defaults to 10, a present one must lie in [1,1000] (it is an `Int`, so the
`.int()` check is structural here). -/
def parseOffsetCount : Option Int → Except String Int
  | none => .ok 10
  | some c => if c < 1 ∨ c > 1000 then .error countErrMsg else .ok c

/-- The `datetime` part of the `offset_request` transform:
`value?.date ? parseNaiveDatetime(value.date, value.minute) : undefined`.
A JS string is truthy iff nonempty, so an absent or empty `date` yields
`undefined` without calling the parser. -/
def parseOffsetDatetime (date : Option String) (minute : Option String) :
    Except String (Option NaiveDatetime) :=
  match date with
  | some d =>
    if d = "" then .ok none
    else
      match parseNaiveDatetime d minute with
      | .error e => .error e
      | .ok dt => .ok (some dt)
  | none => .ok none

/-- The `offset_request` field of the candlestick schema:
inner object (direction literal 0|1, optional date/minute strings, bounded
count), then `.optional()`, then `.transform(...)`.  Because the transform
is OUTSIDE the optional it also runs on an absent sub-object, producing
`{forward: false, datetime: undefined, count: undefined}`. -/
def parseOffsetRequest : Option RawOffsetRequest → Except String OffsetReq
  | none => .ok { forward := false, datetime := none, count := none }
  | some o =>
    if ¬ (o.direction = 0 ∨ o.direction = 1) then .error invalidInputMsg
    else
      match parseOffsetCount o.count with
      | .error e => .error e
      | .ok cnt =>
        match parseOffsetDatetime o.date o.minute with
        | .error e => .error e
        | .ok dt => .ok { forward := o.direction == 1, datetime := dt, count := some cnt }

/-- The `date_request` field of the candlestick schema: inner object with
required `start_date` / `end_date`, `.transform` decoding both through
`parseNaiveDate`, then `.optional()`.  Because the optional is OUTSIDE the
transform an absent sub-object stays absent. -/
def parseDateRequest : Option RawDateRequest → Except String (Option DateReq)
  | none => .ok none
  | some r =>
    match parseNaiveDate r.start_date with
    | .error e => .error e
    | .ok s =>
      match parseNaiveDate r.end_date with
      | .error e => .error e
      | .ok e2 => .ok (some { start := s, end_ := e2 })

/-- JS truthiness of the transformed `offset_request`: it is an object, and
an object is always truthy, so `!data.offset_request` is always false. -/
def offsetTruthy (_ : OffsetReq) : Bool := true

/-- JS truthiness of the transformed `date_request`:
`undefined` is falsy, an object is truthy. -/
def dateReqTruthy : Option DateReq → Bool
  | none => false
  | some _ => true

/-- The `.refine` predicate of `QuoteHistoryCandlesticksSchema`, applied to
the post-transform data:
`query_type === 1 && !data.offset_request` → false;
`query_type === 2 && !data.date_request` → false; otherwise true. -/
def candleRefine (data : CandleParams) : Bool :=
  if data.query_type = 1 ∧ offsetTruthy data.offset_request = false then false
  else if data.query_type = 2 ∧ dateReqTruthy data.date_request = false then false
  else true

/-- Embedding of `QuoteHistoryCandlesticksSchema.parse` from
`src/constants.ts`: field-level validation/transforms, then the `.refine`
cross-field rule.  Throwing (zod issues, including the parsers thrown inside
transforms) is modelled by `Except.error`. -/
def quoteHistoryCandlesticksParse (a : RawCandleArgs) : Except String CandleParams :=
  if ¬ symbolOk a.symbol = true then .error symbolErrMsg
  else if ¬ (a.query_type = 1 ∨ a.query_type = 2) then .error invalidInputMsg
  else
    match parseDateRequest a.date_request with
    | .error e => .error e
    | .ok dr =>
      match parseOffsetRequest a.offset_request with
      | .error e => .error e
      | .ok orq =>
        let data : CandleParams :=
          { symbol := a.symbol, period := a.period, adjust_type := a.adjust_type,
            query_type := a.query_type, date_request := dr, offset_request := orq }
        if candleRefine data = true then .ok data else .error invalidInputMsg

/-- The backend operation chosen by `LongBridge.quoteHistoryCandlesticks`:
either `historyCandlesticksByOffset` or `historyCandlesticksByDate`,
with the argument lists of `src/api.ts`. -/
inductive CandleBackendCall
  | byOffset (symbol : String) (period : Period) (adjust : AdjustType)
      (forward : Bool) (datetime : Option NaiveDatetime) (count : Int)
  | byDate (symbol : String) (period : Period) (adjust : AdjustType)
      (start : Option NaiveDate) (end_ : Option NaiveDate)
deriving DecidableEq

/-- The dispatch on `params.query_type` inside
`LongBridge.quoteHistoryCandlesticks`:
query_type 1 → `historyCandlesticksByOffset(symbol, period, adjust_type,`
`offset_request?.forward, offset_request?.datetime, offset_request?.count ?? 10)`;
otherwise → `historyCandlesticksByDate(symbol, period, adjust_type,`
`date_request?.start, date_request?.end)`. -/
def candlestickBackendCall (p : CandleParams) : CandleBackendCall :=
  if p.query_type = 1 then
    .byOffset p.symbol p.period p.adjust_type p.offset_request.forward
      p.offset_request.datetime (p.offset_request.count.getD 10)
  else
    .byDate p.symbol p.period p.adjust_type
      (p.date_request.map (fun r => r.start)) (p.date_request.map (fun r => r.end_))

/-- One content block of a Result Envelope (`{type: "text", text: string}`). -/
structure ContentBlock where
  type : String
  text : String
deriving DecidableEq

/-- The Result Envelope (`ServerResult`): content blocks plus the error flag.
In TS `isError` is optional; an absent flag is modelled as `false`. -/
structure ServerResult where
  content : List ContentBlock
  isError : Bool
deriving DecidableEq

/-- The three fault shapes distinguished by `handleErrorResult`:
a `ZodError`, any other `Error` (whose `.message` is used), and an arbitrary
thrown value (whose `JSON.stringify` serialization is carried). -/
inductive Fault
  | zodError (msg : String)
  | jsError (msg : String)
  | other (serialized : String)
deriving DecidableEq

/-- The message rendering of `handleErrorResult`:
`fromError(error).toString()` for a `ZodError` (the zod-validation-error
library prepends "Validation error: " to the issue text — modelled here,
since that library is a dependency, not repository code), `error.message`
for an `Error`, and `JSON.stringify(error)` otherwise. -/
def renderFault : Fault → String
  | .zodError msg => "Validation error: " ++ msg
  | .jsError msg => msg
  | .other serialized => serialized

/-- Embedding of `LongBridge.handleErrorResult` from `src/api.ts`: one text
block holding the rendered message, with `isError: true`. -/
def handleErrorResult (e : Fault) : ServerResult :=
  { content := [{ type := "text", text := renderFault e }], isError := true }

/-- Embedding of `LongBridge.handleSuccessResult`: each result item becomes
one text block holding `JSON.stringify(item)` (serialization abstracted as
`stringify`), in the given order; the error flag is not set. -/
def handleSuccessResult {α : Type} (stringify : α → String) (result : List α) : ServerResult :=
  { content := result.map (fun item => { type := "text", text := stringify item }),
    isError := false }

/-- The common body shape of every `LongBridge` tool method:
`try { schema.parse(args); await getContext(); await backend(...);`
`return success blocks } catch (e) { return handleErrorResult(e) }`.
Each stage is an `Except` whose `.error` models a throw at that stage
(`stringify` may also throw, covering faults while building the result);
the surrounding try/catch is the match cascade, and totality of this
function is the model of "no fault propagates past the dispatcher". -/
def runToolHandler {α β : Type} (stringify : α → Except Fault String)
    (validation : Except Fault β) (session : Except Fault Nat)
    (backend : β → Nat → Except Fault (List α)) : ServerResult :=
  match validation with
  | .error e => handleErrorResult e
  | .ok params =>
    match session with
    | .error e => handleErrorResult e
    | .ok ctx =>
      match backend params ctx with
      | .error e => handleErrorResult e
      | .ok items =>
        match items.mapM stringify with
        | .error e => handleErrorResult e
        | .ok texts =>
          { content := texts.map (fun t => { type := "text", text := t }), isError := false }

/-- The `Tool` enum of `src/constants.ts`: the closed set of tool names. -/
inductive Tool
  | quoteStaticInfo
  | quoteRealtimeInfo
  | quoteDepth
  | quoteTrades
  | quoteIntraday
  | quoteHistoryCandlesticks
  | quoteCapitalFlow
  | quoteCapitalDistribution
  | quoteCalcIndex
  | quoteWatchList
  | tradeHistoryExecutions
  | tradeTodayExecutions
  | tradeAccountBalance
  | tradeStockPositions
deriving DecidableEq

/-- The string value of each `Tool` enum member. -/
def toolName : Tool → String
  | .quoteStaticInfo => "quote-static-info"
  | .quoteRealtimeInfo => "quote-realtime-info"
  | .quoteDepth => "quote-depth"
  | .quoteTrades => "quote-trades"
  | .quoteIntraday => "quote-intraday"
  | .quoteHistoryCandlesticks => "quote-history-candlesticks"
  | .quoteCapitalFlow => "quote-capital-flow"
  | .quoteCapitalDistribution => "quote-capital-distribution"
  | .quoteCalcIndex => "quote-calc-index"
  | .quoteWatchList => "quote-watch-list"
  | .tradeHistoryExecutions => "trade-history-executions"
  | .tradeTodayExecutions => "trade-today-executions"
  | .tradeAccountBalance => "trade-account-balance"
  | .tradeStockPositions => "trade-stock-positions"

/-- Embedding of `ToolNameSchema.safeParse(request.params.name)`: success exactly when the
name is one of the 14 registered enum values. -/
def toolFromString (s : String) : Option Tool :=
  if s = "quote-static-info" then some .quoteStaticInfo
  else if s = "quote-realtime-info" then some .quoteRealtimeInfo
  else if s = "quote-depth" then some .quoteDepth
  else if s = "quote-trades" then some .quoteTrades
  else if s = "quote-intraday" then some .quoteIntraday
  else if s = "quote-history-candlesticks" then some .quoteHistoryCandlesticks
  else if s = "quote-capital-flow" then some .quoteCapitalFlow
  else if s = "quote-capital-distribution" then some .quoteCapitalDistribution
  else if s = "quote-calc-index" then some .quoteCalcIndex
  else if s = "quote-watch-list" then some .quoteWatchList
  else if s = "trade-history-executions" then some .tradeHistoryExecutions
  else if s = "trade-today-executions" then some .tradeTodayExecutions
  else if s = "trade-account-balance" then some .tradeAccountBalance
  else if s = "trade-stock-positions" then some .tradeStockPositions
  else none

/-- The 14 registered tool name strings, in declaration order. -/
def toolNameList : List String :=
  ["quote-static-info", "quote-realtime-info", "quote-depth", "quote-trades",
   "quote-intraday", "quote-history-candlesticks", "quote-capital-flow",
   "quote-capital-distribution", "quote-calc-index", "quote-watch-list",
   "trade-history-executions", "trade-today-executions", "trade-account-balance",
   "trade-stock-positions"]

/-- The zod `invalid_enum_value` issue text produced when
`ToolNameSchema.safeParse` rejects a name (zod library rendering, modelled;
quotes around the option names are elided).  It names the received value. -/
def zodEnumErrorMessage (received : String) : String :=
  "Invalid enum value. Expected " ++ String.intercalate " | " toolNameList ++
    ", received " ++ received

/-- The stage outcomes of one tool handler invocation, abstracting the
tool-specific schema, context and backend behaviour (validated params
abstracted to `Unit`, backend items to their serialized `String` forms,
`stringify` kept fallible to model a throwing `JSON.stringify`). -/
structure HandlerOutcomes where
  validation : Except Fault Unit
  session : Except Fault Nat
  backend : Unit → Nat → Except Fault (List String)
  stringify : String → Except Fault String

/-- Run one handler with the given stage outcomes. -/
def runOutcomes (o : HandlerOutcomes) : ServerResult :=
  runToolHandler o.stringify o.validation o.session o.backend

/-- The `CallToolRequestSchema` handler of `src/index.ts`: parse the tool
name with `ToolNameSchema.safeParse`; on success invoke the registered
handler, otherwise return `handleErrorResult` of the zod error. -/
def dispatchCall (outcomes : Tool → HandlerOutcomes) (name : String) : ServerResult :=
  match toolFromString name with
  | some t => runOutcomes (outcomes t)
  | none => handleErrorResult (Fault.zodError (zodEnumErrorMessage name))

/-- Identifier of a loaded `Config` (fresh per `Config.fromEnv()` call). -/
abbrev ConfigHandle := Nat

/-- Identifier of a `TradeContext` (fresh per `TradeContext.new` call). -/
abbrev TradeContextHandle := Nat

/-- Identifier of a `QuoteContext` (fresh per `QuoteContext.new` call). -/
abbrev QuoteContextHandle := Nat

/-- The private memo fields of a `LongBridge` instance. -/
structure LongBridgeState where
  _config : Option ConfigHandle
  tradeContext : Option TradeContextHandle
  quoteContext : Option QuoteContextHandle
deriving DecidableEq

/-- Constructor `new LongBridge()`: all memo fields start empty. -/
def newLongBridge : LongBridgeState :=
  { _config := none, tradeContext := none, quoteContext := none }

/-- Process-wide instrumentation: a fresh-id counter and how many times
`Config.fromEnv`, `TradeContext.new` and `QuoteContext.new` have run. -/
structure ProcessWorld where
  counter : Nat
  configLoads : Nat
  tradeConstructions : Nat
  quoteConstructions : Nat
deriving DecidableEq

/-- The world at process start. -/
def initialWorld : ProcessWorld :=
  { counter := 0, configLoads := 0, tradeConstructions := 0, quoteConstructions := 0 }

/-- The private `config` getter of `LongBridge`: `Config.fromEnv()` on first
access, memoized in `_config` afterwards. -/
def configGet (lb : LongBridgeState) (w : ProcessWorld) :
    ConfigHandle × LongBridgeState × ProcessWorld :=
  match lb._config with
  | some c => (c, lb, w)
  | none =>
    (w.counter, { lb with _config := some w.counter },
     { w with counter := w.counter + 1, configLoads := w.configLoads + 1 })

/-- Embedding of `LongBridge.getTradeContext`: return the memoized handle if present,
otherwise `TradeContext.new(this.config)` (reading the config getter first)
and memoize the result. -/
def getTradeContext (lb : LongBridgeState) (w : ProcessWorld) :
    TradeContextHandle × LongBridgeState × ProcessWorld :=
  match lb.tradeContext with
  | some t => (t, lb, w)
  | none =>
    match configGet lb w with
    | (_, lb1, w1) =>
      (w1.counter, { lb1 with tradeContext := some w1.counter },
       { w1 with counter := w1.counter + 1,
                 tradeConstructions := w1.tradeConstructions + 1 })

/-- Embedding of `LongBridge.getQuoteContext`: same lazy memoization for the quote side. -/
def getQuoteContext (lb : LongBridgeState) (w : ProcessWorld) :
    QuoteContextHandle × LongBridgeState × ProcessWorld :=
  match lb.quoteContext with
  | some q => (q, lb, w)
  | none =>
    match configGet lb w with
    | (_, lb1, w1) =>
      (w1.counter, { lb1 with quoteContext := some w1.counter },
       { w1 with counter := w1.counter + 1,
                 quoteConstructions := w1.quoteConstructions + 1 })

/-- Which session kind a handler touches. -/
inductive SessionKind
  | trade
  | quote
deriving DecidableEq

/-- One tool invocation as dispatched by `src/index.ts`: the handler body of
`CallToolRequestSchema` executes `const longBridge = new LongBridge()`, so
every invocation starts from a FRESH instance before obtaining its context. -/
def runInvocation (k : SessionKind) (w : ProcessWorld) : Nat × ProcessWorld :=
  match k with
  | .trade =>
    match getTradeContext newLongBridge w with
    | (h, _, w1) => (h, w1)
  | .quote =>
    match getQuoteContext newLongBridge w with
    | (h, _, w1) => (h, w1)

/-- A sequence of tool invocations within one process lifetime, collecting
the session handle each invocation observed. -/
def processRun : List SessionKind → ProcessWorld → List Nat × ProcessWorld
  | [], w => ([], w)
  | k :: ks, w =>
    match runInvocation k w with
    | (h, w1) =>
      match processRun ks w1 with
      | (hs, w2) => (h :: hs, w2)

/-- A sequence of context requests served by a SINGLE `LongBridge` instance
(the memoization the class actually implements), collecting each request's
kind and the handle it received. -/
def lbRun : List SessionKind → LongBridgeState → ProcessWorld →
    List (SessionKind × Nat) × LongBridgeState × ProcessWorld
  | [], lb, w => ([], lb, w)
  | k :: ks, lb, w =>
    match (match k with
           | SessionKind.trade => getTradeContext lb w
           | SessionKind.quote => getQuoteContext lb w) with
    | (h, lb1, w1) =>
      match lbRun ks lb1 w1 with
      | (res, lb2, w2) => ((k, h) :: res, lb2, w2)

/-- Cooperative-interleaving state of one task running
`getTradeContext` on a shared instance: `ready` (not yet entered),
`awaitingNew h` (passed the `if (!this.tradeContext)` check and suspended at
`await TradeContext.new(...)`, which will produce handle `h`), or
`finishedWith h` (assigned the memo field and returned `h`). -/
inductive TaskState
  | ready
  | awaitingNew (h : Nat)
  | finishedWith (h : Nat)
deriving DecidableEq

/-- Shared state for the construction race: the shared `LongBridge` instance
plus construction counters. -/
structure RaceWorld where
  lb : LongBridgeState
  counter : Nat
  configLoads : Nat
  tradeConstructions : Nat
deriving DecidableEq

/-- One cooperative step of a task executing `getTradeContext`.  The whole
synchronous prefix — the memo check, the `config` getter and the call that
starts `TradeContext.new` — runs atomically up to the `await`; the
assignment `this.tradeContext = …` and the return run atomically after it. -/
def raceStep (w : RaceWorld) (t : TaskState) : RaceWorld × TaskState :=
  match t with
  | .ready =>
    match w.lb.tradeContext with
    | some h => (w, .finishedWith h)
    | none =>
      match w.lb._config with
      | some _ =>
        ({ w with counter := w.counter + 1,
                  tradeConstructions := w.tradeConstructions + 1 },
         .awaitingNew w.counter)
      | none =>
        ({ w with lb := { w.lb with _config := some w.counter },
                  counter := w.counter + 2,
                  configLoads := w.configLoads + 1,
                  tradeConstructions := w.tradeConstructions + 1 },
         .awaitingNew (w.counter + 1))
  | .awaitingNew h =>
    ({ w with lb := { w.lb with tradeContext := some h } }, .finishedWith h)
  | .finishedWith h => (w, .finishedWith h)

/-- Run two concurrent tasks under a cooperative schedule: `true` steps the
first task, `false` the second. -/
def raceRun : List Bool → RaceWorld × TaskState × TaskState → RaceWorld × TaskState × TaskState
  | [], s => s
  | b :: rest, (w, t1, t2) =>
    if b then
      match raceStep w t1 with
      | (w1, t1') => raceRun rest (w1, t1', t2)
    else
      match raceStep w t2 with
      | (w1, t2') => raceRun rest (w1, t1, t2')

/-- Both tasks about to call `getTradeContext` on one freshly constructed,
shared `LongBridge`. -/
def raceStart : RaceWorld × TaskState × TaskState :=
  ({ lb := newLongBridge, counter := 0, configLoads := 0, tradeConstructions := 0 },
   .ready, .ready)

/-- Remaining construction budget for the config memo: 1 while `_config` is
unset, 0 once it is memoized. -/
def cfgSlack (lb : LongBridgeState) : Nat := if lb._config.isSome then 0 else 1

/-- Remaining construction budget for the trade-context memo. -/
def tSlack (lb : LongBridgeState) : Nat := if lb.tradeContext.isSome then 0 else 1

/-- Remaining construction budget for the quote-context memo. -/
def qSlack (lb : LongBridgeState) : Nat := if lb.quoteContext.isSome then 0 else 1

/-- C5: `parseNaiveDate` succeeds with fields read straight off the digits
exactly on 8-digit strings whose month is in [1,12] and day in [1,31]; any
other length or non-digit content fails with the format error (for example
the 7-digit "2023101"); an in-format string with month or day out of range
fails with the value error (for example "20231301"); and the calendrically
invalid "20230230" is accepted, since day-of-month / leap-year correctness
is not checked. -/
theorem parseNaiveDate_spec :
    (∀ s : String, isEightDigits s → dateInRange s →
        parseNaiveDate s = .ok { year := yearOf s, month := monthOf s, day := dayOf s }) ∧
    (∀ s : String, ¬ isEightDigits s → parseNaiveDate s = .error dateFormatErrMsg) ∧
    (∀ s : String, isEightDigits s → ¬ dateInRange s →
        parseNaiveDate s = .error dateValueErrMsg) ∧
    parseNaiveDate "20230230" = .ok { year := 2023, month := 2, day := 30 } ∧
    parseNaiveDate "2023101" = .error dateFormatErrMsg ∧
    parseNaiveDate "20231301" = .error dateValueErrMsg := by
  refine ⟨?_, ?_, ?_, by decide, by decide, by decide⟩
  · intro s h1 h2
    obtain ⟨hm1, hm2, hd1, hd2⟩ := h2
    unfold monthOf at hm1 hm2
    unfold dayOf at hd1 hd2
    unfold parseNaiveDate
    rw [if_neg (not_not_intro h1), if_neg (by omega)]
    rfl
  · intro s h1
    unfold parseNaiveDate
    rw [if_pos h1]
  · intro s h1 h2
    unfold dateInRange monthOf dayOf at h2
    unfold parseNaiveDate
    rw [if_neg (not_not_intro h1), if_pos (by omega)]

/-- Witness for C5: concrete instances of each quantified branch of
`parseNaiveDate_spec`. -/
theorem parseNaiveDate_spec_witness :
    parseNaiveDate "19991231" = .ok { year := 1999, month := 12, day := 31 } ∧
    parseNaiveDate "1231" = .error dateFormatErrMsg ∧
    parseNaiveDate "20230001" = .error dateValueErrMsg :=
  ⟨parseNaiveDate_spec.1 "19991231" (by decide) (by decide),
   parseNaiveDate_spec.2.1 "1231" (by decide),
   parseNaiveDate_spec.2.2.1 "20230001" (by decide) (by decide)⟩

/-- C6: `parseTime` succeeds exactly on 4- or 6-digit strings with hour in
[0,23], minute in [0,59] and (for the 6-digit form) second in [0,59]; a
4-digit input yields second 0; any other length or non-digit content fails
with the format error (for example the 5-digit "99999"); out-of-range
components fail with the value error (for example "2460", minute 60). -/
theorem parseTime_spec :
    (∀ s : String, isTimeDigits s → timeInRange s →
        parseTime s = .ok { hour := hourOf s, minute := minuteOf s, second := secondOf s }) ∧
    (∀ s : String, ¬ isTimeDigits s → parseTime s = .error timeFormatErrMsg) ∧
    (∀ s : String, isTimeDigits s → ¬ timeInRange s → parseTime s = .error timeValueErrMsg) ∧
    parseTime "0935" = .ok { hour := 9, minute := 35, second := 0 } ∧
    parseTime "093512" = .ok { hour := 9, minute := 35, second := 12 } ∧
    parseTime "2460" = .error timeValueErrMsg ∧
    parseTime "99999" = .error timeFormatErrMsg := by
  refine ⟨?_, ?_, ?_, by decide, by decide, by decide, by decide⟩
  · intro s h1 h2
    obtain ⟨hh, hm, hs⟩ := h2
    unfold hourOf at hh
    unfold minuteOf at hm
    unfold secondOf at hs
    unfold parseTime
    rw [if_neg (not_not_intro h1), if_neg (by omega)]
    rfl
  · intro s h1
    unfold parseTime
    rw [if_pos h1]
  · intro s h1 h2
    unfold timeInRange hourOf minuteOf secondOf at h2
    unfold parseTime
    rw [if_neg (not_not_intro h1), if_pos (by omega)]

/-- Witness for C6: concrete instances of each quantified branch of
`parseTime_spec`. -/
theorem parseTime_spec_witness :
    parseTime "2359" = .ok { hour := 23, minute := 59, second := 0 } ∧
    parseTime "123" = .error timeFormatErrMsg ∧
    parseTime "250000" = .error timeValueErrMsg :=
  ⟨parseTime_spec.1 "2359" (by decide) (by decide),
   parseTime_spec.2.1 "123" (by decide),
   parseTime_spec.2.2.1 "250000" (by decide) (by decide)⟩

/-- Helper: parsing the string value of a registered tool name yields that
tool (round trip of `toolName` through `ToolNameSchema.safeParse`). -/
theorem toolFromString_toolName (t : Tool) : toolFromString (toolName t) = some t := by
  cases t <;> rfl

/-- Helper: the `mapM` accumulator loop over a non-throwing serializer. -/
theorem mapM_loop_ok {α : Type} (f : α → String) (items : List α) : ∀ acc : List String,
    List.mapM.loop (fun a => (Except.ok (f a) : Except Fault String)) items acc =
      Except.ok (acc.reverse ++ items.map f) := by
  induction items with
  | nil =>
    intro acc
    simp only [List.mapM.loop, List.map_nil, List.append_nil]
    rfl
  | cons x xs ih =>
    intro acc
    show List.mapM.loop (fun a => (Except.ok (f a) : Except Fault String)) xs (f x :: acc) =
      Except.ok (acc.reverse ++ (x :: xs).map f)
    rw [ih (f x :: acc)]
    simp

/-- Helper: `mapM` over a non-throwing serializer is the plain `map`. -/
theorem mapM_ok_map {α : Type} (f : α → String) (items : List α) :
    List.mapM (fun a => (Except.ok (f a) : Except Fault String)) items =
      Except.ok (items.map f) := by
  simp [List.mapM, mapM_loop_ok]

/-- C1 (code bug evidence): an argument bag that selects query-by-offset
(`query_type = 1`) and omits `offset_request` entirely PASSES validation —
the `.refine` branch `query_type === 1 && !data.offset_request` can never
fire, because the transform sits outside `.optional()` and turns the absent
sub-object into the defined object `{forward: false, datetime: undefined,
count: undefined}`.  The field's own description ("Required when querying by
offset") and the dead refine branch document the contrary intent. -/
theorem candlesticks_offset_mode_without_offset_request_accepted :
    quoteHistoryCandlesticksParse
        { symbol := "AAPL.US", period := Period.day, adjust_type := AdjustType.noAdjust,
          query_type := 1, date_request := none, offset_request := none } =
      .ok { symbol := "AAPL.US", period := Period.day, adjust_type := AdjustType.noAdjust,
            query_type := 1, date_request := none,
            offset_request := { forward := false, datetime := none, count := none } } := by
  decide

/-- C7: with `query_type = 2` (query by date range) an absent `date_request`
always fails validation — whether or not an `offset_request` is supplied —
and whenever a `date_request` is supplied and validation succeeds, its
`start_date` and `end_date` were both decoded through `parseNaiveDate`. -/
theorem candlesticks_date_mode_requires_date_request :
    (∀ a : RawCandleArgs, a.query_type = 2 → a.date_request = none →
        ∃ e, quoteHistoryCandlesticksParse a = .error e) ∧
    (∀ (a : RawCandleArgs) (r : RawDateRequest) (p : CandleParams),
        a.date_request = some r → quoteHistoryCandlesticksParse a = .ok p →
        ∃ d1 d2, parseNaiveDate r.start_date = .ok d1 ∧ parseNaiveDate r.end_date = .ok d2 ∧
          p.date_request = some { start := d1, end_ := d2 }) := by
  constructor
  · intro a hq hd
    unfold quoteHistoryCandlesticksParse
    split
    · exact ⟨_, rfl⟩
    · split
      · exact ⟨_, rfl⟩
      · rw [hd]
        cases hor : parseOffsetRequest a.offset_request with
        | error e =>
          refine ⟨e, ?_⟩
          simp only [parseDateRequest, hor]
        | ok orq =>
          refine ⟨invalidInputMsg, ?_⟩
          simp only [parseDateRequest, hor]
          rw [if_neg]
          simp [candleRefine, dateReqTruthy, hq]
  · intro a r p hr hok
    unfold quoteHistoryCandlesticksParse at hok
    split at hok
    · exact absurd hok (by simp)
    · split at hok
      · exact absurd hok (by simp)
      · rw [hr] at hok
        cases h1 : parseNaiveDate r.start_date with
        | error e =>
          simp only [parseDateRequest, h1] at hok
          exact absurd hok (by simp)
        | ok d1 =>
          cases h2 : parseNaiveDate r.end_date with
          | error e =>
            simp only [parseDateRequest, h1, h2] at hok
            exact absurd hok (by simp)
          | ok d2 =>
            simp only [parseDateRequest, h1, h2] at hok
            cases hor : parseOffsetRequest a.offset_request with
            | error e =>
              simp only [hor] at hok
              exact absurd hok (by simp)
            | ok orq =>
              simp only [hor] at hok
              refine ⟨d1, d2, rfl, rfl, ?_⟩
              split at hok
              · injection hok with hp
                rw [← hp]
              · exact absurd hok (by simp)

/-- Witness for C7: a concrete by-date bag with no `date_request` (but with
an `offset_request`) is rejected, and a concrete by-date bag with a
`date_request` decodes both dates through `parseNaiveDate`. -/
theorem candlesticks_date_mode_requires_date_request_witness :
    (∃ e, quoteHistoryCandlesticksParse
        { symbol := "AAPL.US", period := Period.day, adjust_type := AdjustType.noAdjust,
          query_type := 2, date_request := none,
          offset_request := some { direction := 0, date := none, minute := none, count := none } } =
        .error e) ∧
    (∃ d1 d2, parseNaiveDate "20231016" = .ok d1 ∧ parseNaiveDate "20231020" = .ok d2 ∧
        (({ symbol := "AAPL.US", period := Period.day, adjust_type := AdjustType.noAdjust,
            query_type := 2,
            date_request := some { start := { year := 2023, month := 10, day := 16 },
                                   end_ := { year := 2023, month := 10, day := 20 } },
            offset_request := { forward := false, datetime := none, count := none } } :
          CandleParams)).date_request = some { start := d1, end_ := d2 }) :=
  ⟨candlesticks_date_mode_requires_date_request.1
      { symbol := "AAPL.US", period := Period.day, adjust_type := AdjustType.noAdjust,
        query_type := 2, date_request := none,
        offset_request := some { direction := 0, date := none, minute := none, count := none } }
      rfl rfl,
   candlesticks_date_mode_requires_date_request.2
      { symbol := "AAPL.US", period := Period.day, adjust_type := AdjustType.noAdjust,
        query_type := 2,
        date_request := some { start_date := "20231016", end_date := "20231020" },
        offset_request := none }
      { start_date := "20231016", end_date := "20231020" }
      { symbol := "AAPL.US", period := Period.day, adjust_type := AdjustType.noAdjust,
        query_type := 2,
        date_request := some { start := { year := 2023, month := 10, day := 16 },
                               end_ := { year := 2023, month := 10, day := 20 } },
        offset_request := { forward := false, datetime := none, count := none } }
      rfl (by decide)⟩

/-- C10: every argument bag that passes candlestick validation carries a
DEFINED `offset_request` object (the field's type in `CandleParams` is not
optional); when the caller omitted `offset_request` entirely the transform
produced `{forward: false, datetime: undefined, count: undefined}`, and for
`query_type = 1` the handler then issues the offset backend call with
`forward = false`, no datetime anchor, and `count ?? 10 = 10`. -/
theorem candlesticks_offset_request_always_defined :
    (∀ (a : RawCandleArgs) (p : CandleParams),
        quoteHistoryCandlesticksParse a = .ok p → a.offset_request = none →
        p.offset_request = { forward := false, datetime := none, count := none }) ∧
    (∀ (a : RawCandleArgs) (p : CandleParams),
        quoteHistoryCandlesticksParse a = .ok p → a.offset_request = none →
        p.query_type = 1 →
        candlestickBackendCall p =
          .byOffset p.symbol p.period p.adjust_type false none 10) := by
  have main : ∀ (a : RawCandleArgs) (p : CandleParams),
      quoteHistoryCandlesticksParse a = .ok p → a.offset_request = none →
      p.offset_request = { forward := false, datetime := none, count := none } := by
    intro a p hok hoff
    unfold quoteHistoryCandlesticksParse at hok
    split at hok
    · exact absurd hok (by simp)
    · split at hok
      · exact absurd hok (by simp)
      · cases hdr : parseDateRequest a.date_request with
        | error e =>
          rw [hdr] at hok
          exact absurd hok (by simp)
        | ok dr =>
          rw [hoff] at hok
          simp only [hdr, parseOffsetRequest] at hok
          split at hok
          · injection hok with hp
            rw [← hp]
          · exact absurd hok (by simp)
  refine ⟨main, ?_⟩
  intro a p hok hoff hq
  have hfield := main a p hok hoff
  unfold candlestickBackendCall
  rw [if_pos hq, hfield]
  rfl

/-- Witness for C10: the concrete bag of the C1 evaluation, pushed through
both conjuncts of `candlesticks_offset_request_always_defined`. -/
theorem candlesticks_offset_request_always_defined_witness :
    (({ symbol := "AAPL.US", period := Period.day, adjust_type := AdjustType.noAdjust,
        query_type := 1, date_request := none,
        offset_request := { forward := false, datetime := none, count := none } } :
      CandleParams)).offset_request = { forward := false, datetime := none, count := none } ∧
    candlestickBackendCall
        { symbol := "AAPL.US", period := Period.day, adjust_type := AdjustType.noAdjust,
          query_type := 1, date_request := none,
          offset_request := { forward := false, datetime := none, count := none } } =
      .byOffset "AAPL.US" Period.day AdjustType.noAdjust false none 10 :=
  ⟨candlesticks_offset_request_always_defined.1
      { symbol := "AAPL.US", period := Period.day, adjust_type := AdjustType.noAdjust,
        query_type := 1, date_request := none, offset_request := none }
      { symbol := "AAPL.US", period := Period.day, adjust_type := AdjustType.noAdjust,
        query_type := 1, date_request := none,
        offset_request := { forward := false, datetime := none, count := none } }
      (by decide) rfl,
   candlesticks_offset_request_always_defined.2
      { symbol := "AAPL.US", period := Period.day, adjust_type := AdjustType.noAdjust,
        query_type := 1, date_request := none, offset_request := none }
      { symbol := "AAPL.US", period := Period.day, adjust_type := AdjustType.noAdjust,
        query_type := 1, date_request := none,
        offset_request := { forward := false, datetime := none, count := none } }
      (by decide) rfl rfl⟩

/-- C2: for every registered tool and any stage outcomes, a fault thrown
during validation, session construction, the backend call, or result
building surfaces as `handleErrorResult` of that fault: an envelope with
`isError: true` and exactly one text block, with no success blocks next to
it.  (`dispatchCall` is total, so no fault propagates past the dispatcher.) -/
theorem dispatch_fault_containment (outcomes : Tool → HandlerOutcomes) (t : Tool) (e : Fault)
    (hfault :
      (outcomes t).validation = .error e ∨
      (∃ p, (outcomes t).validation = .ok p ∧ (outcomes t).session = .error e) ∨
      (∃ p c, (outcomes t).validation = .ok p ∧ (outcomes t).session = .ok c ∧
        (outcomes t).backend p c = .error e) ∨
      (∃ p c items, (outcomes t).validation = .ok p ∧ (outcomes t).session = .ok c ∧
        (outcomes t).backend p c = .ok items ∧
        items.mapM (outcomes t).stringify = .error e)) :
    dispatchCall outcomes (toolName t) = handleErrorResult e ∧
    (dispatchCall outcomes (toolName t)).isError = true ∧
    (dispatchCall outcomes (toolName t)).content = [{ type := "text", text := renderFault e }] := by
  have hmain : dispatchCall outcomes (toolName t) = handleErrorResult e := by
    unfold dispatchCall
    rw [toolFromString_toolName t]
    show runOutcomes (outcomes t) = handleErrorResult e
    unfold runOutcomes runToolHandler
    rcases hfault with h | ⟨p, h1, h2⟩ | ⟨p, c, h1, h2, h3⟩ | ⟨p, c, items, h1, h2, h3, h4⟩
    · rw [h]
    · simp only [h1, h2]
    · simp only [h1, h2, h3]
    · simp only [h1, h2, h3, h4]
  exact ⟨hmain, by rw [hmain]; rfl, by rw [hmain]; rfl⟩

/-- Witness for C2: a concrete validation fault on the account-balance tool
is converted into the error envelope. -/
theorem dispatch_fault_containment_witness :
    dispatchCall
        (fun _ => { validation := Except.error (Fault.jsError "backend down"),
                    session := Except.ok 0, backend := fun _ _ => Except.ok [],
                    stringify := fun s => Except.ok s })
        (toolName Tool.tradeAccountBalance) =
      handleErrorResult (Fault.jsError "backend down") ∧
    (dispatchCall
        (fun _ => { validation := Except.error (Fault.jsError "backend down"),
                    session := Except.ok 0, backend := fun _ _ => Except.ok [],
                    stringify := fun s => Except.ok s })
        (toolName Tool.tradeAccountBalance)).isError = true ∧
    (dispatchCall
        (fun _ => { validation := Except.error (Fault.jsError "backend down"),
                    session := Except.ok 0, backend := fun _ _ => Except.ok [],
                    stringify := fun s => Except.ok s })
        (toolName Tool.tradeAccountBalance)).content =
      [{ type := "text", text := renderFault (Fault.jsError "backend down") }] :=
  dispatch_fault_containment _ Tool.tradeAccountBalance (Fault.jsError "backend down")
    (Or.inl rfl)

/-- C8: the success envelope built from an ordered collection of n backend
items has exactly n content blocks, the i-th block holding the serialization
of the i-th item (source order preserved); a single-object result yields
exactly one block; and the generic handler body produces exactly
`handleSuccessResult` on its success path.  Grounded on a concrete 3-element
collection in the last conjunct. -/
theorem success_envelope_blocks :
    (∀ (α : Type) (f : α → String) (items : List α),
        (handleSuccessResult f items).content.length = items.length ∧
        (handleSuccessResult f items).isError = false ∧
        ∀ i : Nat, (handleSuccessResult f items).content[i]? =
          (items[i]?).map (fun x => { type := "text", text := f x })) ∧
    (∀ (α : Type) (f : α → String) (x : α),
        handleSuccessResult f [x] =
          { content := [{ type := "text", text := f x }], isError := false }) ∧
    (∀ (α β : Type) (f : α → String) (p : β) (c : Nat) (items : List α),
        runToolHandler (fun a => Except.ok (f a)) (Except.ok p) (Except.ok c)
            (fun _ _ => Except.ok items) =
          handleSuccessResult f items) ∧
    handleSuccessResult (fun s => s) ["a", "b", "c"] =
      { content := [{ type := "text", text := "a" }, { type := "text", text := "b" },
                    { type := "text", text := "c" }], isError := false } := by
  refine ⟨?_, ?_, ?_, by decide⟩
  · intro α f items
    refine ⟨by simp [handleSuccessResult], rfl, ?_⟩
    intro i
    simp [handleSuccessResult]
  · intro α f x
    rfl
  · intro α β f p c items
    unfold runToolHandler
    simp only [mapM_ok_map]
    simp [handleSuccessResult, List.map_map, Function.comp]

/-- C9: dispatching the unregistered name "not-a-tool" returns (rather than
throws — `dispatchCall` is total) the same error-envelope shape as a
validation failure: `handleErrorResult` of the zod enum error, `isError:
true`, exactly one text block, and the message contains the invalid name. -/
theorem unknown_tool_name_error_envelope (outcomes : Tool → HandlerOutcomes) :
    dispatchCall outcomes "not-a-tool" =
      handleErrorResult (Fault.zodError (zodEnumErrorMessage "not-a-tool")) ∧
    (dispatchCall outcomes "not-a-tool").isError = true ∧
    (dispatchCall outcomes "not-a-tool").content.length = 1 ∧
    (∃ pre post, renderFault (Fault.zodError (zodEnumErrorMessage "not-a-tool")) =
        pre ++ "not-a-tool" ++ post) := by
  have hnone : toolFromString "not-a-tool" = none := by decide
  have hmain : dispatchCall outcomes "not-a-tool" =
      handleErrorResult (Fault.zodError (zodEnumErrorMessage "not-a-tool")) := by
    unfold dispatchCall
    rw [hnone]
  refine ⟨hmain, by rw [hmain]; rfl, by rw [hmain]; rfl, ?_⟩
  refine ⟨"Validation error: " ++ "Invalid enum value. Expected " ++
      String.intercalate " | " toolNameList ++ ", received ", "", ?_⟩
  simp only [renderFault, zodEnumErrorMessage, String.append_assoc, String.append_empty]

/-- C4 (code bug evidence): two tasks calling `getTradeContext` concurrently
on a shared instance, both passing the `if (!this.tradeContext)` check
before either construction completes (schedule: task 1 to its await, task 2
to its await, task 1 resumes, task 2 resumes), cause TWO `TradeContext.new`
constructions and the callers end with DIFFERENT handles (the second
assignment overwrites the first in the memo) — the in-flight promise is not
cached, only the completed result. -/
theorem getTradeContext_concurrent_first_calls_double_construction :
    (raceRun [true, false, true, false] raceStart).1.tradeConstructions = 2 ∧
    (raceRun [true, false, true, false] raceStart).2.1 = TaskState.finishedWith 1 ∧
    (raceRun [true, false, true, false] raceStart).2.2 = TaskState.finishedWith 2 ∧
    TaskState.finishedWith 1 ≠ TaskState.finishedWith 2 := by
  decide

/-- C3 (counterexample): two successive invocations that both need the trade
session construct the `TradeContext` twice and load the configuration twice
within one process lifetime, and observe different handles (1 and 3) — the
dispatcher builds a fresh `LongBridge` per request, so the memoization is
per-invocation, not process-wide. -/
theorem session_construction_not_process_wide :
    (processRun [SessionKind.trade, SessionKind.trade] initialWorld).2.tradeConstructions = 2 ∧
    (processRun [SessionKind.trade, SessionKind.trade] initialWorld).2.configLoads = 2 ∧
    (processRun [SessionKind.trade, SessionKind.trade] initialWorld).1 = [1, 3] := by
  decide

/-- Helper: the config getter does not touch the context memos or their
construction counters. -/
theorem configGet_fields (lb : LongBridgeState) (w : ProcessWorld) :
    (configGet lb w).2.1.tradeContext = lb.tradeContext ∧
    (configGet lb w).2.1.quoteContext = lb.quoteContext ∧
    (configGet lb w).2.2.tradeConstructions = w.tradeConstructions ∧
    (configGet lb w).2.2.quoteConstructions = w.quoteConstructions := by
  unfold configGet
  cases hc : lb._config <;> simp

/-- Helper: the config getter spends at most the remaining config budget
(`Config.fromEnv` runs only on the none-to-some transition of `_config`). -/
theorem configGet_budget (lb : LongBridgeState) (w : ProcessWorld) :
    (configGet lb w).2.2.configLoads + cfgSlack (configGet lb w).2.1 ≤
      w.configLoads + cfgSlack lb := by
  unfold configGet cfgSlack
  cases hc : lb._config <;> simp [hc]

/-- Helper: effect bounds of one `getTradeContext` call: it spends at most
the remaining trade and config budgets and leaves the quote side untouched. -/
theorem getTradeContext_effects (lb : LongBridgeState) (w : ProcessWorld) :
    (getTradeContext lb w).2.2.tradeConstructions + tSlack (getTradeContext lb w).2.1 ≤
      w.tradeConstructions + tSlack lb ∧
    (getTradeContext lb w).2.2.configLoads + cfgSlack (getTradeContext lb w).2.1 ≤
      w.configLoads + cfgSlack lb ∧
    (getTradeContext lb w).2.2.quoteConstructions = w.quoteConstructions ∧
    (getTradeContext lb w).2.1.quoteContext = lb.quoteContext := by
  unfold getTradeContext
  cases ht : lb.tradeContext with
  | some t => simp [tSlack, ht]
  | none =>
    rcases hcg : configGet lb w with ⟨c, lb1, w1⟩
    have hf := configGet_fields lb w
    have hb := configGet_budget lb w
    rw [hcg] at hf hb
    simp only [hcg]
    obtain ⟨hf1, hf2, hf3, hf4⟩ := hf
    refine ⟨?_, ?_, by simpa using hf4, by simpa using hf2⟩
    · simp only [tSlack, ht] at *
      simp [hf3]
    · simp only [cfgSlack] at *
      simpa using hb

/-- Helper: effect bounds of one `getQuoteContext` call, symmetric to
`getTradeContext_effects`. -/
theorem getQuoteContext_effects (lb : LongBridgeState) (w : ProcessWorld) :
    (getQuoteContext lb w).2.2.quoteConstructions + qSlack (getQuoteContext lb w).2.1 ≤
      w.quoteConstructions + qSlack lb ∧
    (getQuoteContext lb w).2.2.configLoads + cfgSlack (getQuoteContext lb w).2.1 ≤
      w.configLoads + cfgSlack lb ∧
    (getQuoteContext lb w).2.2.tradeConstructions = w.tradeConstructions ∧
    (getQuoteContext lb w).2.1.tradeContext = lb.tradeContext := by
  unfold getQuoteContext
  cases hq : lb.quoteContext with
  | some q => simp [qSlack, hq]
  | none =>
    rcases hcg : configGet lb w with ⟨c, lb1, w1⟩
    have hf := configGet_fields lb w
    have hb := configGet_budget lb w
    rw [hcg] at hf hb
    simp only [hcg]
    obtain ⟨hf1, hf2, hf3, hf4⟩ := hf
    refine ⟨?_, ?_, by simpa using hf3, by simpa using hf1⟩
    · simp only [qSlack, hq] at *
      simp [hf4]
    · simp only [cfgSlack] at *
      simpa using hb

/-- Helper: after any `getTradeContext` call the returned handle is exactly
the memoized one. -/
theorem getTradeContext_memoizes (lb : LongBridgeState) (w : ProcessWorld) :
    (getTradeContext lb w).2.1.tradeContext = some (getTradeContext lb w).1 := by
  unfold getTradeContext
  cases ht : lb.tradeContext with
  | some t => simp [ht]
  | none =>
    rcases hcg : configGet lb w with ⟨c, lb1, w1⟩
    simp [hcg]

/-- Helper: after any `getQuoteContext` call the returned handle is exactly
the memoized one. -/
theorem getQuoteContext_memoizes (lb : LongBridgeState) (w : ProcessWorld) :
    (getQuoteContext lb w).2.1.quoteContext = some (getQuoteContext lb w).1 := by
  unfold getQuoteContext
  cases hq : lb.quoteContext with
  | some q => simp [hq]
  | none =>
    rcases hcg : configGet lb w with ⟨c, lb1, w1⟩
    simp [hcg]

/-- Helper: with the trade handle memoized, `getTradeContext` is the
identity returning that handle. -/
theorem getTradeContext_stable (lb : LongBridgeState) (w : ProcessWorld) (t : Nat)
    (h : lb.tradeContext = some t) : getTradeContext lb w = (t, lb, w) := by
  unfold getTradeContext
  rw [h]

/-- Helper: with the quote handle memoized, `getQuoteContext` is the
identity returning that handle. -/
theorem getQuoteContext_stable (lb : LongBridgeState) (w : ProcessWorld) (q : Nat)
    (h : lb.quoteContext = some q) : getQuoteContext lb w = (q, lb, w) := by
  unfold getQuoteContext
  rw [h]

/-- Helper: a run over a single instance spends at most the remaining
budgets: at most one trade construction, one quote construction and one
config load beyond what the memo state already accounts for. -/
theorem lbRun_budget (ks : List SessionKind) : ∀ (lb : LongBridgeState) (w : ProcessWorld),
    (lbRun ks lb w).2.2.tradeConstructions + tSlack (lbRun ks lb w).2.1 ≤
      w.tradeConstructions + tSlack lb ∧
    (lbRun ks lb w).2.2.quoteConstructions + qSlack (lbRun ks lb w).2.1 ≤
      w.quoteConstructions + qSlack lb ∧
    (lbRun ks lb w).2.2.configLoads + cfgSlack (lbRun ks lb w).2.1 ≤
      w.configLoads + cfgSlack lb := by
  induction ks with
  | nil => intro lb w; simp [lbRun]
  | cons k ks ih =>
    intro lb w
    cases k with
    | trade =>
      rcases hstep : getTradeContext lb w with ⟨h0, lb1, w1⟩
      have he := getTradeContext_effects lb w
      rw [hstep] at he
      obtain ⟨he1, he2, he3, he4⟩ := he
      have hq1 : qSlack lb1 = qSlack lb := by
        unfold qSlack
        rw [he4]
      rcases hrec : lbRun ks lb1 w1 with ⟨res, lb2, w2⟩
      have hi := ih lb1 w1
      rw [hrec] at hi
      simp only [lbRun, hstep, hrec]
      obtain ⟨hi1, hi2, hi3⟩ := hi
      simp only at hi1 hi2 hi3 he1 he2 he3
      refine ⟨by omega, by rw [hq1] at hi2; omega, by omega⟩
    | quote =>
      rcases hstep : getQuoteContext lb w with ⟨h0, lb1, w1⟩
      have he := getQuoteContext_effects lb w
      rw [hstep] at he
      obtain ⟨he1, he2, he3, he4⟩ := he
      have ht1 : tSlack lb1 = tSlack lb := by
        unfold tSlack
        rw [he4]
      rcases hrec : lbRun ks lb1 w1 with ⟨res, lb2, w2⟩
      have hi := ih lb1 w1
      rw [hrec] at hi
      simp only [lbRun, hstep, hrec]
      obtain ⟨hi1, hi2, hi3⟩ := hi
      simp only at hi1 hi2 hi3 he1 he2 he3
      refine ⟨by rw [ht1] at hi1; omega, by omega, by omega⟩

/-- Helper: once the trade handle is memoized, every trade request of a run
returns exactly that handle and the memo never changes. -/
theorem lbRun_trade_stable (ks : List SessionKind) :
    ∀ (lb : LongBridgeState) (w : ProcessWorld) (t : Nat), lb.tradeContext = some t →
    (∀ h, (SessionKind.trade, h) ∈ (lbRun ks lb w).1 → h = t) ∧
    (lbRun ks lb w).2.1.tradeContext = some t := by
  induction ks with
  | nil => intro lb w t hmemo; simp [lbRun, hmemo]
  | cons k ks ih =>
    intro lb w t hmemo
    cases k with
    | trade =>
      rw [show lbRun (SessionKind.trade :: ks) lb w =
            ((SessionKind.trade, (getTradeContext lb w).1) :: (lbRun ks (getTradeContext lb w).2.1 (getTradeContext lb w).2.2).1,
             (lbRun ks (getTradeContext lb w).2.1 (getTradeContext lb w).2.2).2.1,
             (lbRun ks (getTradeContext lb w).2.1 (getTradeContext lb w).2.2).2.2) from by
        simp only [lbRun]]
      rw [getTradeContext_stable lb w t hmemo]
      have hi := ih lb w t hmemo
      refine ⟨?_, hi.2⟩
      intro h hmem
      simp only [List.mem_cons, Prod.mk.injEq] at hmem
      rcases hmem with ⟨_, rfl⟩ | hmem
      · rfl
      · exact hi.1 h hmem
    | quote =>
      rcases hstep : getQuoteContext lb w with ⟨h0, lb1, w1⟩
      have he := getQuoteContext_effects lb w
      rw [hstep] at he
      have hpres : lb1.tradeContext = some t := by
        have := he.2.2.2
        simp only at this
        rw [this, hmemo]
      have hi := ih lb1 w1 t hpres
      rcases hrec : lbRun ks lb1 w1 with ⟨res, lb2, w2⟩
      rw [hrec] at hi
      simp only [lbRun, hstep, hrec]
      refine ⟨?_, hi.2⟩
      intro h hmem
      simp only [List.mem_cons, Prod.mk.injEq] at hmem
      rcases hmem with ⟨hk, _⟩ | hmem
      · exact absurd hk (by simp)
      · exact hi.1 h hmem

/-- Helper: once the quote handle is memoized, every quote request of a run
returns exactly that handle and the memo never changes. -/
theorem lbRun_quote_stable (ks : List SessionKind) :
    ∀ (lb : LongBridgeState) (w : ProcessWorld) (q : Nat), lb.quoteContext = some q →
    (∀ h, (SessionKind.quote, h) ∈ (lbRun ks lb w).1 → h = q) ∧
    (lbRun ks lb w).2.1.quoteContext = some q := by
  induction ks with
  | nil => intro lb w q hmemo; simp [lbRun, hmemo]
  | cons k ks ih =>
    intro lb w q hmemo
    cases k with
    | quote =>
      rw [show lbRun (SessionKind.quote :: ks) lb w =
            ((SessionKind.quote, (getQuoteContext lb w).1) :: (lbRun ks (getQuoteContext lb w).2.1 (getQuoteContext lb w).2.2).1,
             (lbRun ks (getQuoteContext lb w).2.1 (getQuoteContext lb w).2.2).2.1,
             (lbRun ks (getQuoteContext lb w).2.1 (getQuoteContext lb w).2.2).2.2) from by
        simp only [lbRun]]
      rw [getQuoteContext_stable lb w q hmemo]
      have hi := ih lb w q hmemo
      refine ⟨?_, hi.2⟩
      intro h hmem
      simp only [List.mem_cons, Prod.mk.injEq] at hmem
      rcases hmem with ⟨_, rfl⟩ | hmem
      · rfl
      · exact hi.1 h hmem
    | trade =>
      rcases hstep : getTradeContext lb w with ⟨h0, lb1, w1⟩
      have he := getTradeContext_effects lb w
      rw [hstep] at he
      have hpres : lb1.quoteContext = some q := by
        have := he.2.2.2
        simp only at this
        rw [this, hmemo]
      have hi := ih lb1 w1 q hpres
      rcases hrec : lbRun ks lb1 w1 with ⟨res, lb2, w2⟩
      rw [hrec] at hi
      simp only [lbRun, hstep, hrec]
      refine ⟨?_, hi.2⟩
      intro h hmem
      simp only [List.mem_cons, Prod.mk.injEq] at hmem
      rcases hmem with ⟨hk, _⟩ | hmem
      · exact absurd hk (by simp)
      · exact hi.1 h hmem

/-- Helper: all trade handles observed during a run over one instance are
equal, whatever the starting memo state. -/
theorem lbRun_trade_pairwise (ks : List SessionKind) :
    ∀ (lb : LongBridgeState) (w : ProcessWorld) (h h' : Nat),
    (SessionKind.trade, h) ∈ (lbRun ks lb w).1 →
    (SessionKind.trade, h') ∈ (lbRun ks lb w).1 → h = h' := by
  induction ks with
  | nil => intro lb w h h' hmem; simp [lbRun] at hmem
  | cons k ks ih =>
    intro lb w h h' hmem hmem'
    cases k with
    | trade =>
      rcases hstep : getTradeContext lb w with ⟨ht, lb1, w1⟩
      have hmz := getTradeContext_memoizes lb w
      rw [hstep] at hmz
      simp only at hmz
      have hstable := lbRun_trade_stable ks lb1 w1 ht hmz
      rcases hrec : lbRun ks lb1 w1 with ⟨res, lb2, w2⟩
      rw [hrec] at hstable
      rw [show lbRun (SessionKind.trade :: ks) lb w = ((SessionKind.trade, ht) :: res, lb2, w2) from by
        simp only [lbRun, hstep, hrec]] at hmem hmem'
      simp only [List.mem_cons, Prod.mk.injEq] at hmem hmem'
      have hv : h = ht := by
        rcases hmem with ⟨_, rfl⟩ | hmem
        · rfl
        · exact hstable.1 h hmem
      have hv' : h' = ht := by
        rcases hmem' with ⟨_, rfl⟩ | hmem'
        · rfl
        · exact hstable.1 h' hmem'
      rw [hv, hv']
    | quote =>
      rcases hstep : getQuoteContext lb w with ⟨hq, lb1, w1⟩
      rcases hrec : lbRun ks lb1 w1 with ⟨res, lb2, w2⟩
      rw [show lbRun (SessionKind.quote :: ks) lb w = ((SessionKind.quote, hq) :: res, lb2, w2) from by
        simp only [lbRun, hstep, hrec]] at hmem hmem'
      simp only [List.mem_cons, Prod.mk.injEq] at hmem hmem'
      have hm : (SessionKind.trade, h) ∈ res := by
        rcases hmem with ⟨hk, _⟩ | hmem
        · exact absurd hk (by simp)
        · exact hmem
      have hm' : (SessionKind.trade, h') ∈ res := by
        rcases hmem' with ⟨hk, _⟩ | hmem'
        · exact absurd hk (by simp)
        · exact hmem'
      have := ih lb1 w1 h h'
      rw [hrec] at this
      exact this hm hm'

/-- Helper: all quote handles observed during a run over one instance are
equal, whatever the starting memo state. -/
theorem lbRun_quote_pairwise (ks : List SessionKind) :
    ∀ (lb : LongBridgeState) (w : ProcessWorld) (h h' : Nat),
    (SessionKind.quote, h) ∈ (lbRun ks lb w).1 →
    (SessionKind.quote, h') ∈ (lbRun ks lb w).1 → h = h' := by
  induction ks with
  | nil => intro lb w h h' hmem; simp [lbRun] at hmem
  | cons k ks ih =>
    intro lb w h h' hmem hmem'
    cases k with
    | quote =>
      rcases hstep : getQuoteContext lb w with ⟨hq, lb1, w1⟩
      have hmz := getQuoteContext_memoizes lb w
      rw [hstep] at hmz
      simp only at hmz
      have hstable := lbRun_quote_stable ks lb1 w1 hq hmz
      rcases hrec : lbRun ks lb1 w1 with ⟨res, lb2, w2⟩
      rw [hrec] at hstable
      rw [show lbRun (SessionKind.quote :: ks) lb w = ((SessionKind.quote, hq) :: res, lb2, w2) from by
        simp only [lbRun, hstep, hrec]] at hmem hmem'
      simp only [List.mem_cons, Prod.mk.injEq] at hmem hmem'
      have hv : h = hq := by
        rcases hmem with ⟨_, rfl⟩ | hmem
        · rfl
        · exact hstable.1 h hmem
      have hv' : h' = hq := by
        rcases hmem' with ⟨_, rfl⟩ | hmem'
        · rfl
        · exact hstable.1 h' hmem'
      rw [hv, hv']
    | trade =>
      rcases hstep : getTradeContext lb w with ⟨ht, lb1, w1⟩
      rcases hrec : lbRun ks lb1 w1 with ⟨res, lb2, w2⟩
      rw [show lbRun (SessionKind.trade :: ks) lb w = ((SessionKind.trade, ht) :: res, lb2, w2) from by
        simp only [lbRun, hstep, hrec]] at hmem hmem'
      simp only [List.mem_cons, Prod.mk.injEq] at hmem hmem'
      have hm : (SessionKind.quote, h) ∈ res := by
        rcases hmem with ⟨hk, _⟩ | hmem
        · exact absurd hk (by simp)
        · exact hmem
      have hm' : (SessionKind.quote, h') ∈ res := by
        rcases hmem' with ⟨hk, _⟩ | hmem'
        · exact absurd hk (by simp)
        · exact hmem'
      have := ih lb1 w1 h h'
      rw [hrec] at this
      exact this hm hm'

/-- C3 (amended): the memoization the code actually implements is per
`LongBridge` instance, not per process: for any sequence of context requests
served by a single fresh instance, the trade context is constructed at most
once, the quote context at most once, the configuration is loaded at most
once, and all requests for the same session kind observe the same handle. -/
theorem session_memoization_per_instance (ks : List SessionKind) :
    (lbRun ks newLongBridge initialWorld).2.2.tradeConstructions ≤ 1 ∧
    (lbRun ks newLongBridge initialWorld).2.2.quoteConstructions ≤ 1 ∧
    (lbRun ks newLongBridge initialWorld).2.2.configLoads ≤ 1 ∧
    (∀ h h', (SessionKind.trade, h) ∈ (lbRun ks newLongBridge initialWorld).1 →
        (SessionKind.trade, h') ∈ (lbRun ks newLongBridge initialWorld).1 → h = h') ∧
    (∀ h h', (SessionKind.quote, h) ∈ (lbRun ks newLongBridge initialWorld).1 →
        (SessionKind.quote, h') ∈ (lbRun ks newLongBridge initialWorld).1 → h = h') := by
  have hb := lbRun_budget ks newLongBridge initialWorld
  obtain ⟨hb1, hb2, hb3⟩ := hb
  have hs1 : tSlack newLongBridge = 1 := rfl
  have hs2 : qSlack newLongBridge = 1 := rfl
  have hs3 : cfgSlack newLongBridge = 1 := rfl
  rw [hs1] at hb1
  rw [hs2] at hb2
  rw [hs3] at hb3
  have hz1 : initialWorld.tradeConstructions = 0 := rfl
  have hz2 : initialWorld.quoteConstructions = 0 := rfl
  have hz3 : initialWorld.configLoads = 0 := rfl
  rw [hz1] at hb1
  rw [hz2] at hb2
  rw [hz3] at hb3
  refine ⟨by omega, by omega, by omega,
    lbRun_trade_pairwise ks newLongBridge initialWorld,
    lbRun_quote_pairwise ks newLongBridge initialWorld⟩

/-- Witness for C3 (amended): on a single shared instance serving two trade
requests, the second request observes the same handle (1) as the first. -/
theorem session_memoization_per_instance_witness :
    (SessionKind.trade, 1) ∈ (lbRun [SessionKind.trade, SessionKind.trade] newLongBridge initialWorld).1 ∧
    (1 : Nat) = 1 :=
  ⟨by decide,
   (session_memoization_per_instance [SessionKind.trade, SessionKind.trade]).2.2.2.1 1 1
     (by decide) (by decide)⟩

/-- Witness for C8: a concrete 3-element collection yields an envelope with
exactly 3 blocks and no error flag. -/
theorem success_envelope_blocks_witness :
    (handleSuccessResult (fun s : String => s) ["x", "y", "z"]).content.length = 3 ∧
    (handleSuccessResult (fun s : String => s) ["x", "y", "z"]).isError = false :=
  ⟨(success_envelope_blocks.1 String (fun s => s) ["x", "y", "z"]).1.trans rfl,
   (success_envelope_blocks.1 String (fun s => s) ["x", "y", "z"]).2.1⟩

/-- Witness for C9: the unknown-name envelope under one concrete set of
handler outcomes. -/
theorem unknown_tool_name_error_envelope_witness :
    dispatchCall
        (fun _ => { validation := Except.ok (), session := Except.ok 0,
                    backend := fun _ _ => Except.ok [], stringify := fun s => Except.ok s })
        "not-a-tool" =
      handleErrorResult (Fault.zodError (zodEnumErrorMessage "not-a-tool")) :=
  (unknown_tool_name_error_envelope
    (fun _ => { validation := Except.ok (), session := Except.ok 0,
                backend := fun _ _ => Except.ok [], stringify := fun s => Except.ok s })).1
